import Mathlib

/-!
# Verification of the googlecloudstorage-blueprints name-resolution core

Shallow embedding of the four command-line scripts (`download_file.py`,
`upload_file.py`, `move_file.py`, `remove_file.py`).  The pure
path-resolution functions are translated directly; the storage backend
(Google Cloud Storage client) is modelled as an explicit state with
success/failure oracles for the external primitives; `main`'s control
flow is modelled as an event trace.
-/

set_option autoImplicit false

namespace GcsBlueprints

/-! ## Path resolver: `os.path` primitives used by the scripts -/

/-- Python `str.split('/')` on a list of characters, as used by
`posixpath.normpath`.  Always returns a non-empty list of
separator-free components. -/
def splitSlash : List Char → List (List Char)
  | [] => [[]]
  | c :: cs =>
    if c = '/' then [] :: splitSlash cs
    else
      match splitSlash cs with
      | [] => [[c]]
      | h :: t => (c :: h) :: t

/-- Python `'/'.join(comps)` on lists of characters. -/
def joinSlash : List (List Char) → List Char
  | [] => []
  | [c] => c
  | c :: rest => c ++ '/' :: joinSlash rest

/-- The component-filtering loop of `posixpath.normpath`: drops empty and
`'.'` components and resolves `'..'` against the accumulated prefix.  The
accumulator holds the Python `new_comps` list in reverse (its head is
Python's `new_comps[-1]`). -/
def normLoop (hasInit : Bool) : List (List Char) → List (List Char) → List (List Char)
  | [], newComps => newComps.reverse
  | comp :: rest, newComps =>
    if comp = [] ∨ comp = ['.'] then
      normLoop hasInit rest newComps
    else if comp ≠ ['.', '.'] ∨ (hasInit = false ∧ newComps = []) ∨
        newComps.head? = some ['.', '.'] then
      normLoop hasInit rest (comp :: newComps)
    else
      match newComps with
      | _ :: pop => normLoop hasInit rest pop
      | [] => normLoop hasInit rest newComps

/-- Python `os.path.normpath` (POSIX variant), translated from
`posixpath.normpath`: split on `'/'`, drop empty/`'.'` components,
resolve `'..'`, re-join, preserving one or two initial slashes. -/
def normpath (path : String) : String :=
  if path = "" then "." else
  let l := path.toList
  let initialSlashes : Nat :=
    if l.take 1 = ['/'] then
      if l.take 2 = ['/', '/'] ∧ ¬ l.take 3 = ['/', '/', '/'] then 2 else 1
    else 0
  let comps := splitSlash l
  let newComps := normLoop (initialSlashes ≠ 0) comps []
  let joined := List.replicate initialSlashes '/' ++ joinSlash newComps
  if joined = [] then "." else String.mk joined

/-- Python `folder_name.strip('/')`: remove leading and trailing `'/'`
characters. -/
def stripSlashes (s : String) : String :=
  String.mk (((s.toList.dropWhile (fun c => c = '/')).reverse.dropWhile
    (fun c => c = '/')).reverse)

/-- Embeds `clean_folder_name` (download_file.py / upload_file.py): strip the
surrounding slashes and, when the result is non-empty, normalize it. -/
def clean_folder_name (folderName : String) : String :=
  let stripped := stripSlashes folderName
  if stripped ≠ "" then normpath stripped else stripped

/-- Embeds `combine_folder_and_file_name` (download_file.py / upload_file.py):
concatenate folder and file with a single `'/'` when the folder is
non-empty (Python truthiness), then normalize (twice, as the source
does). -/
def combine_folder_and_file_name (folderName fileName : String) : String :=
  let combinedName :=
    normpath (folderName ++ (if folderName ≠ "" then "/" else "") ++ fileName)
  normpath combinedName

/-- Embeds `extract_file_name_from_source_full_path`
(download_file.py / upload_file.py): `os.path.basename`, the segment
after the last `'/'`. -/
def extract_file_name_from_source_full_path (sourceFullPath : String) : String :=
  String.mk ((sourceFullPath.toList.reverse.takeWhile (fun c => c ≠ '/')).reverse)

/-- Python `re.sub(r'\.', repl, s, 1)` with a literal-text replacement:
replace the first `'.'` of `s` by `repl`. -/
def subFirstDot (repl : List Char) : List Char → List Char
  | [] => []
  | c :: cs => if c = '.' then repl ++ cs else c :: subFirstDot repl cs

/-- Embeds `enumerate_destination_file_name`
(download_file.py / upload_file.py): if the name contains a `'.'`,
replace its first `'.'` by `_<n>.`; otherwise append `_<n>`. -/
def enumerate_destination_file_name (destinationFileName : String)
    (fileNumber : Nat) : String :=
  if '.' ∈ destinationFileName.toList then
    String.mk (subFirstDot (('_' :: (toString fileNumber).toList) ++ ['.'])
      destinationFileName.toList)
  else
    destinationFileName ++ "_" ++ toString fileNumber

/-- Embeds `determine_destination_file_name`
(download_file.py / upload_file.py): dispatch on Python truthiness of
`destination_file_name` (`None` or `""` are falsy) and of `file_number`
(`None` or `0` are falsy). -/
def determine_destination_file_name (sourceFullPath : String)
    (destinationFileName : Option String) (fileNumber : Option Nat) : String :=
  match destinationFileName with
  | some d =>
    if d ≠ "" then
      match fileNumber with
      | some n =>
        if n ≠ 0 then enumerate_destination_file_name d n else d
      | none => d
    else extract_file_name_from_source_full_path sourceFullPath
  | none => extract_file_name_from_source_full_path sourceFullPath

/-- Embeds `determine_destination_name` (download_file.py): resolve the file
name, then combine with the destination folder. -/
def determine_destination_name (destinationFolderName : String)
    (destinationFileName : Option String) (sourceFullPath : String)
    (fileNumber : Option Nat) : String :=
  combine_folder_and_file_name destinationFolderName
    (determine_destination_file_name sourceFullPath destinationFileName fileNumber)

/-- Embeds `determine_destination_full_path` (upload_file.py; move_file.py calls
the identical `shipyard.files.determine_destination_full_path`, the
spec's unified Path Resolver): same pipeline as
`determine_destination_name`. -/
def determine_destination_full_path (destinationFolderName : String)
    (destinationFileName : Option String) (sourceFullPath : String)
    (fileNumber : Option Nat) : String :=
  combine_folder_and_file_name destinationFolderName
    (determine_destination_file_name sourceFullPath destinationFileName fileNumber)

/-- The spec's `resolve_destination` contract (section 4.1.5), written
from the spec's words, with presence-based (not truthiness-based)
dispatch, for comparison with `determine_destination_name`. -/
def resolve_destination_spec (destFolder : String) (destFileName : Option String)
    (sourcePath : String) (matchIndex : Option Nat) : String :=
  match destFileName with
  | some d =>
    match matchIndex with
    | some n => combine_folder_and_file_name destFolder (enumerate_destination_file_name d n)
    | none => combine_folder_and_file_name destFolder d
  | none =>
    combine_folder_and_file_name destFolder
      (extract_file_name_from_source_full_path sourcePath)

/-! ## Matching -/

/-- A Google Blob as the matching code observes it: its object name
(full path within the bucket). -/
structure Blob where
  name : String
deriving DecidableEq

/-- Embeds `find_matching_files` (download_file.py): keep, in listing order, the
blobs whose name the compiled pattern matches.  `re.search` (unanchored
substring search by the external `re` engine) is abstracted as the
predicate `fileNameRe`. -/
def find_matching_files (fileBlobs : List Blob) (fileNameRe : String → Bool) :
    List Blob :=
  match fileBlobs with
  | [] => []
  | blob :: rest =>
    if fileNameRe blob.name then blob :: find_matching_files rest fileNameRe
    else find_matching_files rest fileNameRe

/-- Embeds `gcp_find_matching_files` (remove_file.py): the verbatim copy of
`find_matching_files`. -/
def gcp_find_matching_files (fileBlobs : List Blob) (fileNameRe : String → Bool) :
    List Blob :=
  match fileBlobs with
  | [] => []
  | blob :: rest =>
    if fileNameRe blob.name then blob :: gcp_find_matching_files rest fileNameRe
    else gcp_find_matching_files rest fileNameRe

/-- Embeds `find_all_file_matches` (upload_file.py; move_file.py calls the
identical `shipyard.files.find_all_file_matches`): the same filter over
plain path strings. -/
def find_all_file_matches (fileNames : List String) (fileNameRe : String → Bool) :
    List String :=
  match fileNames with
  | [] => []
  | file :: rest =>
    if fileNameRe file then file :: find_all_file_matches rest fileNameRe
    else find_all_file_matches rest fileNameRe

/-! ## Backend state and the move primitive -/

/-- One stored object: bucket, object path, contents. -/
structure BucketObj where
  bucket : String
  path : String
  data : String
deriving DecidableEq

/-- Retrieve an object's contents from the backend state (first entry
for the key wins, so consing a fresh entry overwrites). -/
def getObj (st : List BucketObj) (b p : String) : Option String :=
  match st with
  | [] => none
  | o :: rest => if o.bucket = b ∧ o.path = p then some o.data else getObj rest b p

/-- Effect of an acknowledged `copy_blob` on the backend state: the
destination key now holds the source's contents.  If the source key is
absent nothing is written. -/
def copyBlobState (st : List BucketObj) (sb sp db dp : String) : List BucketObj :=
  match getObj st sb sp with
  | some d => BucketObj.mk db dp d :: st
  | none => st

/-- Effect of an acknowledged `blob.delete()` on the backend state: all
entries for the key are gone. -/
def deleteBlobState (st : List BucketObj) (b p : String) : List BucketObj :=
  st.filter (fun o => decide (¬ (o.bucket = b ∧ o.path = p)))

/-- The storage primitives a move issues, in order. -/
inductive MovePrim
  | copy
  | delete
deriving DecidableEq

/-- Whether the backend acknowledges each primitive of one move; models
the external client's success or raised exception. -/
structure MoveOracle where
  copyOk : Bool
  deleteOk : Bool

/-- Embeds `move_google_cloud_storage_file` (move_file.py): `copy_blob` to the
destination, then `delete()` the source.  Returns the primitives
actually attempted (in order) and either the final state or, when a
primitive raises, the state at the uncaught exception
(`Except.error`). -/
def move_google_cloud_storage_file (oracle : MoveOracle) (st : List BucketObj)
    (sourceBucket sourceBlobPath destBucket destBlobPath : String) :
    List MovePrim × Except (List BucketObj) (List BucketObj) :=
  if oracle.copyOk then
    let st1 := copyBlobState st sourceBucket sourceBlobPath destBucket destBlobPath
    if oracle.deleteOk then
      ([MovePrim.copy, MovePrim.delete],
        Except.ok (deleteBlobState st1 sourceBucket sourceBlobPath))
    else
      ([MovePrim.copy, MovePrim.delete], Except.error st1)
  else
    ([MovePrim.copy], Except.error st)

/-! ## The per-operation driver loops (regex mode) -/

/-- The regex-mode loop of download_file.py's `main`
(`for index, blob in enumerate(matching_file_names)` — indices from 0,
`file_number=index + 1` always).  `ok` models whether the download
primitive succeeds for a blob; an exception aborts the loop.  Returns
the `(blob, resolved destination)` pairs attempted, in order, and
whether the whole loop completed. -/
def download_loop (ok : Blob → Bool) (destinationFolderName : String)
    (destinationFileName : Option String) :
    List Blob → Nat → List (Blob × String) × Bool
  | [], _ => ([], true)
  | blob :: rest, index =>
    let dest := determine_destination_name destinationFolderName
      destinationFileName blob.name (some (index + 1))
    if ok blob then
      let r := download_loop ok destinationFolderName destinationFileName rest (index + 1)
      ((blob, dest) :: r.1, r.2)
    else
      ([(blob, dest)], false)

/-- The regex-mode loop of upload_file.py's `main`: identical shape to
the download loop, over local file paths, `file_number=index + 1`
always. -/
def upload_loop (ok : String → Bool) (destinationFolderName : String)
    (destinationFileName : Option String) :
    List String → Nat → List (String × String) × Bool
  | [], _ => ([], true)
  | keyName :: rest, index =>
    let dest := determine_destination_full_path destinationFolderName
      destinationFileName keyName (some (index + 1))
    if ok keyName then
      let r := upload_loop ok destinationFolderName destinationFileName rest (index + 1)
      ((keyName, dest) :: r.1, r.2)
    else
      ([(keyName, dest)], false)

/-- The regex-mode loop of move_file.py's `main`
(`for index, blob in enumerate(matching_file_names, 1)` — indices from 1,
`file_number = None if len(matching_file_names) == 1 else index`).
`total` is `len(matching_file_names)`. -/
def move_loop (ok : String → Bool) (destinationFolderName : String)
    (destinationFileName : Option String) (total : Nat) :
    List String → Nat → List (String × String) × Bool
  | [], _ => ([], true)
  | blob :: rest, index =>
    let dest := determine_destination_full_path destinationFolderName
      destinationFileName blob (if total = 1 then none else some index)
    if ok blob then
      let r := move_loop ok destinationFolderName destinationFileName total rest (index + 1)
      ((blob, dest) :: r.1, r.2)
    else
      ([(blob, dest)], false)

/-! ## `main` control flow: credential temp file and exit paths -/

/-- Observable events of download_file.py's `main`, in program order. -/
inductive MainEv
  | createTmp
  | buildClient
  | lookupBucket
  | listBlobs
  | transfer (name : String)
  | removeTmp
deriving DecidableEq

/-- Event trace of download_file.py's `main` in regex mode.
`credIsJson`: the `--service-account` value parses as JSON (so
`set_environment_variables` writes the temp file and returns its path);
`clientOk` / `bucketOk` / `listOk`: whether client construction, bucket
lookup, and listing-plus-matching succeed (a failure raises or exits,
skipping everything after it — in particular the `os.remove(tmp_file)`
at the end of `main`).  Returns the trace and whether `main` completed
normally. -/
def download_main_trace (credIsJson clientOk bucketOk listOk : Bool)
    (ok : Blob → Bool) (matchingFileNames : List Blob)
    (destinationFolderName : String) (destinationFileName : Option String) :
    List MainEv × Bool :=
  let t0 := if credIsJson then [MainEv.createTmp] else []
  if clientOk = false then (t0 ++ [MainEv.buildClient], false)
  else if bucketOk = false then
    (t0 ++ [MainEv.buildClient, MainEv.lookupBucket], false)
  else if listOk = false then
    (t0 ++ [MainEv.buildClient, MainEv.lookupBucket, MainEv.listBlobs], false)
  else
    let r := download_loop ok destinationFolderName destinationFileName
      matchingFileNames 0
    let transfers := r.1.map (fun p => MainEv.transfer p.1.name)
    if r.2 then
      (t0 ++ [MainEv.buildClient, MainEv.lookupBucket, MainEv.listBlobs] ++
        transfers ++ (if credIsJson then [MainEv.removeTmp] else []), true)
    else
      (t0 ++ [MainEv.buildClient, MainEv.lookupBucket, MainEv.listBlobs] ++
        transfers, false)

/-- The temp credential file is on disk after `main` exits iff it was
created and never removed. -/
def tmpFileLeft (trace : List MainEv) : Prop :=
  MainEv.createTmp ∈ trace ∧ MainEv.removeTmp ∉ trace

instance (trace : List MainEv) : Decidable (tmpFileLeft trace) := by
  unfold tmpFileLeft
  infer_instance

/-! ## Regex-compile failure handling -/

/-- Constant `EXIT_CODE_FILE_NOT_FOUND` (remove_file.py; move_file.py imports the
same constant from its `exit_codes` module). -/
def EXIT_CODE_FILE_NOT_FOUND : Nat := 205

/-- The exit code move_file.py's `get_storage_blob` uses when the
exact-match lookup fails: `sys.exit(ec.EXIT_CODE_FILE_NOT_FOUND)`. -/
def move_file_not_found_exit : Nat := EXIT_CODE_FILE_NOT_FOUND

/-- Outcome of move_file.py's regex matching step (`try` block, `main`
lines 174-183). -/
inductive MoveMatchResult
  | matches (names : List String)
  | exitCode (code : Nat)
deriving DecidableEq

/-- The `try` block of move_file.py's `main`: list the bucket, compile
the pattern, filter.  Any exception — a listing failure or
`re.compile` failing — is caught and mapped to
`sys.exit(ec.EXIT_CODE_FILE_NOT_FOUND)`. -/
def move_regex_matching (compileOk listOk : Bool) (fileNames : List String)
    (pattern : String → Bool) : MoveMatchResult :=
  if listOk = false ∨ compileOk = false then
    MoveMatchResult.exitCode EXIT_CODE_FILE_NOT_FOUND
  else
    MoveMatchResult.matches (find_all_file_matches fileNames pattern)

/-- Outcome of download_file.py's regex matching step: there is no
`try` around `re.compile(source_file_name)` (`main` line 250), so a
compile failure propagates as an uncaught exception. -/
inductive DlMatchResult
  | matches (blobs : List Blob)
  | uncaught
deriving DecidableEq

/-- download_file.py's regex matching step (`main` lines 246-250). -/
def download_regex_matching (compileOk : Bool) (blobs : List Blob)
    (pattern : String → Bool) : DlMatchResult :=
  if compileOk then DlMatchResult.matches (find_matching_files blobs pattern)
  else DlMatchResult.uncaught

/-- move_file.py's regex branch end to end: matching step, then the move
loop over the matches.  Returns the `(blob, destination)` pairs for
which the move primitive was invoked and, when the matching step called
`sys.exit`, its exit code. -/
def move_main_regex (compileOk listOk : Bool) (ok : String → Bool)
    (destinationFolderName : String) (destinationFileName : Option String)
    (fileNames : List String) (pattern : String → Bool) :
    List (String × String) × Option Nat :=
  match move_regex_matching compileOk listOk fileNames pattern with
  | MoveMatchResult.exitCode c => ([], some c)
  | MoveMatchResult.matches ms =>
    ((move_loop ok destinationFolderName destinationFileName ms.length ms 1).1, none)

/-! ## Normal paths (for the path-combination invariant) -/

/-- A path string in normal form: non-empty, and every `'/'`-separated
segment is non-empty and neither `'.'` nor `'..'` (hence no leading,
trailing, or doubled separators and nothing for normalization to
rewrite). -/
def normalPath (s : String) : Prop :=
  s ≠ "" ∧ ∀ c ∈ splitSlash s.toList, c ≠ [] ∧ c ≠ ['.'] ∧ c ≠ ['.', '.']

instance (s : String) : Decidable (normalPath s) := by
  unfold normalPath; infer_instance

/-! ## Helper lemmas: splitting and joining on `'/'` -/

theorem splitSlash_ne_nil (l : List Char) : splitSlash l ≠ [] := by
  cases l with
  | nil => simp [splitSlash]
  | cons c cs =>
    simp only [splitSlash]
    split
    · simp
    · split <;> simp

theorem splitSlash_append (l₁ l₂ : List Char) :
    splitSlash (l₁ ++ '/' :: l₂) = splitSlash l₁ ++ splitSlash l₂ := by
  induction l₁ with
  | nil => simp [splitSlash]
  | cons c cs ih =>
    by_cases hc : c = '/'
    · subst hc
      simp [splitSlash, ih]
    · simp only [List.cons_append, splitSlash, if_neg hc, List.append_eq]
      rw [ih]
      cases h : splitSlash cs with
      | nil => exact absurd h (splitSlash_ne_nil cs)
      | cons h' t' => simp

theorem joinSlash_splitSlash (l : List Char) : joinSlash (splitSlash l) = l := by
  induction l with
  | nil => rfl
  | cons c cs ih =>
    by_cases hc : c = '/'
    · subst hc
      simp only [splitSlash, if_pos rfl]
      cases h : splitSlash cs with
      | nil => exact absurd h (splitSlash_ne_nil cs)
      | cons h' t' =>
        rw [h] at ih
        simpa [joinSlash] using ih
    · simp only [splitSlash, if_neg hc]
      cases h : splitSlash cs with
      | nil => exact absurd h (splitSlash_ne_nil cs)
      | cons h' t' =>
        rw [h] at ih
        cases t' with
        | nil => simpa [joinSlash] using congrArg (c :: ·) ih
        | cons a b =>
          simp only [joinSlash, List.cons_append]
          rw [← ih]
          simp [joinSlash]

theorem normLoop_good (b : Bool) (comps acc : List (List Char))
    (h : ∀ c ∈ comps, c ≠ [] ∧ c ≠ ['.'] ∧ c ≠ ['.', '.']) :
    normLoop b comps acc = acc.reverse ++ comps := by
  induction comps generalizing acc with
  | nil => simp [normLoop]
  | cons comp rest ih =>
    obtain ⟨h1, h2, h3⟩ := h comp (by simp)
    have hrest : ∀ c ∈ rest, c ≠ [] ∧ c ≠ ['.'] ∧ c ≠ ['.', '.'] :=
      fun c hc => h c (by simp [hc])
    simp only [normLoop]
    rw [if_neg (by simp [h1, h2]), if_pos (Or.inl h3), ih (comp :: acc) hrest]
    simp

theorem head_ne_slash {l : List Char} (h : ∀ c ∈ splitSlash l, c ≠ []) :
    l.head? ≠ some '/' := by
  cases l with
  | nil => simp
  | cons c cs =>
    intro hc
    simp only [List.head?_cons, Option.some.injEq] at hc
    subst hc
    exact h [] (by simp [splitSlash]) rfl

theorem getLast_ne_slash {l : List Char} (h : ∀ c ∈ splitSlash l, c ≠ []) :
    l.getLast? ≠ some '/' := by
  intro hc
  rw [← List.head?_reverse] at hc
  cases hr : l.reverse with
  | nil => rw [hr] at hc; simp at hc
  | cons a t =>
    rw [hr] at hc
    simp only [List.head?_cons, Option.some.injEq] at hc
    subst hc
    have hl : l = t.reverse ++ '/' :: [] := by
      have h2 := congrArg List.reverse hr
      simpa using h2
    rw [hl, splitSlash_append] at h
    exact h [] (by simp [splitSlash]) rfl

theorem toList_append (a b : String) : (a ++ b).toList = a.toList ++ b.toList := by
  cases a
  cases b
  rfl

theorem toList_slash_append (a b : String) :
    (a ++ "/" ++ b).toList = a.toList ++ '/' :: b.toList := by
  rw [toList_append, toList_append]
  simp

theorem stripSlashes_id {s : String} (h1 : s.toList.head? ≠ some '/')
    (h2 : s.toList.getLast? ≠ some '/') : stripSlashes s = s := by
  unfold stripSlashes
  have e1 : s.toList.dropWhile (fun c => c = '/') = s.toList := by
    cases hl : s.toList with
    | nil => rfl
    | cons c cs =>
      rw [hl] at h1
      simp only [List.head?_cons, ne_eq, Option.some.injEq] at h1
      simp [List.dropWhile_cons, h1]
  rw [e1]
  have e2 : s.toList.reverse.dropWhile (fun c => c = '/') = s.toList.reverse := by
    cases hr : s.toList.reverse with
    | nil => rfl
    | cons c cs =>
      have hc : s.toList.getLast? = some c := by rw [← List.head?_reverse, hr]; rfl
      have hne : ¬ c = '/' := fun e => h2 (e ▸ hc)
      simp [List.dropWhile_cons, hne]
  rw [e2, List.reverse_reverse]
  cases s
  rfl

theorem normpath_normal {s : String} (h : normalPath s) : normpath s = s := by
  obtain ⟨hne, hcomps⟩ := h
  have hl : s.toList ≠ [] := fun e => hne (String.ext e)
  have hhead : s.toList.head? ≠ some '/' :=
    head_ne_slash (fun c hc => (hcomps c hc).1)
  have htake : ¬ s.toList.take 1 = ['/'] := by
    cases hl2 : s.toList with
    | nil => simp
    | cons c cs =>
      rw [hl2] at hhead
      simp only [List.head?_cons, ne_eq, Option.some.injEq] at hhead
      simp [hhead]
  unfold normpath
  rw [if_neg hne]
  simp only [if_neg htake]
  rw [normLoop_good _ _ _ hcomps]
  simp only [List.reverse_nil, List.nil_append, List.replicate]
  rw [joinSlash_splitSlash]
  rw [if_neg hl]
  cases s
  rfl

theorem clean_folder_name_normal {s : String} (h : normalPath s) :
    clean_folder_name s = s := by
  have hstrip : stripSlashes s = s :=
    stripSlashes_id (head_ne_slash fun c hc => (h.2 c hc).1)
      (getLast_ne_slash fun c hc => (h.2 c hc).1)
  unfold clean_folder_name
  rw [hstrip, if_pos h.1]
  exact normpath_normal h

theorem normalPath_append {a b : String} (ha : normalPath a) (hb : normalPath b) :
    normalPath (a ++ "/" ++ b) := by
  have htl : (a ++ "/" ++ b).toList = a.toList ++ '/' :: b.toList :=
    toList_slash_append a b
  constructor
  · intro e
    have h1 := congrArg String.toList e
    rw [htl] at h1
    simp at h1
  · intro c hc
    rw [htl, splitSlash_append] at hc
    rcases List.mem_append.1 hc with h | h
    · exact ha.2 c h
    · exact hb.2 c h

theorem combine_normal {a b : String} (ha : normalPath a) (hb : normalPath b) :
    combine_folder_and_file_name a b = a ++ "/" ++ b := by
  have hab := normalPath_append ha hb
  unfold combine_folder_and_file_name
  rw [if_pos ha.1]
  rw [normpath_normal hab, normpath_normal hab]

theorem no_double_slash {l : List Char} (h : ∀ c ∈ splitSlash l, c ≠ []) :
    ¬ ['/', '/'] <:+: l := by
  rintro ⟨s, t, rfl⟩
  have he : s ++ ['/', '/'] ++ t = s ++ '/' :: ('/' :: t) := by simp
  rw [he, splitSlash_append] at h
  exact h [] (by simp [splitSlash]) rfl

theorem subFirstDot_eq (repl : List Char) {l : List Char} (h : '.' ∈ l) :
    subFirstDot repl l =
      l.takeWhile (fun c => c ≠ '.') ++ repl ++ (l.dropWhile (fun c => c ≠ '.')).tail := by
  induction l with
  | nil => cases h
  | cons c cs ih =>
    by_cases hc : c = '.'
    · subst hc
      simp [subFirstDot, List.takeWhile_cons, List.dropWhile_cons]
    · have h' : '.' ∈ cs := by
        rcases List.mem_cons.1 h with h2 | h2
        · exact absurd h2.symm hc
        · exact h2
      simp [subFirstDot, hc, List.takeWhile_cons, List.dropWhile_cons, ih h']

/-! ## Claim theorems -/

/-- C5 counterexample: the three-case contract of `resolve_destination`
fails on the code for inputs where a given `dest_file_name` is the
empty string (Python truthiness treats it as absent, so the basename is
used instead of combining `""`), and where a given `match_index` is `0`
(truthiness disables enumeration instead of producing `_0`). -/
theorem C5_counterexample :
    determine_destination_name "out" (some "") "in/report.csv" none ≠
      resolve_destination_spec "out" (some "") "in/report.csv" none ∧
    determine_destination_name "" (some "x.csv") "a/b.csv" (some 0) ≠
      resolve_destination_spec "" (some "x.csv") "a/b.csv" (some 0) :=
  ⟨by decide, by decide⟩

/-- C5 (amended): `determine_destination_name` (and the identical
`determine_destination_full_path`) satisfies the spec's three-case
`resolve_destination` contract for every input in which a given
destination file name is non-empty and a given match index is non-zero
(the dispatch tests truthiness, not presence); in particular
`resolve_destination("out", None, "in/report.csv", None) = "out/report.csv"`
and `resolve_destination("", "x.csv", "a/b.csv", 2) = "x_2.csv"`. -/
theorem C5_amended (destFolder : String) (destFileName : Option String)
    (sourcePath : String) (matchIndex : Option Nat)
    (h1 : destFileName ≠ some "") (h2 : matchIndex ≠ some 0) :
    determine_destination_name destFolder destFileName sourcePath matchIndex =
      resolve_destination_spec destFolder destFileName sourcePath matchIndex ∧
    determine_destination_full_path destFolder destFileName sourcePath matchIndex =
      determine_destination_name destFolder destFileName sourcePath matchIndex ∧
    determine_destination_name "out" none "in/report.csv" none = "out/report.csv" ∧
    determine_destination_name "" (some "x.csv") "a/b.csv" (some 2) = "x_2.csv" := by
  refine ⟨?_, rfl, by decide, by decide⟩
  cases destFileName with
  | none => rfl
  | some d =>
    have hd : d ≠ "" := fun e => h1 (by rw [e])
    cases matchIndex with
    | none =>
      simp [determine_destination_name, resolve_destination_spec,
        determine_destination_file_name, hd]
    | some n =>
      have hn : n ≠ 0 := fun e => h2 (by rw [e])
      simp [determine_destination_name, resolve_destination_spec,
        determine_destination_file_name, hd, hn]

/-- Witness for C5 (amended) at a concrete input. -/
theorem C5_amended_witness :
    determine_destination_name "out" (some "a.csv") "in/b.csv" (some 2) =
      resolve_destination_spec "out" (some "a.csv") "in/b.csv" (some 2) ∧
    determine_destination_full_path "out" (some "a.csv") "in/b.csv" (some 2) =
      determine_destination_name "out" (some "a.csv") "in/b.csv" (some 2) ∧
    determine_destination_name "out" none "in/report.csv" none = "out/report.csv" ∧
    determine_destination_name "" (some "x.csv") "a/b.csv" (some 2) = "x_2.csv" :=
  C5_amended "out" (some "a.csv") "in/b.csv" (some 2) (by decide) (by decide)

/-- C6: `enumerate_name(name, n)` inserts `_<n>` immediately before the
first `'.'` (left-to-right) when the name contains one — leaving the
prefix before it and the suffix after it untouched — and appends `_<n>`
when it contains none; in particular
`enumerate_name("a.csv", 3) = "a_3.csv"` and
`enumerate_name("a", 3) = "a_3"`. -/
theorem C6_enumerate_name (name : String) (n : Nat) :
    enumerate_destination_file_name name n =
      (if '.' ∈ name.toList then
        String.mk (name.toList.takeWhile (fun c => c ≠ '.') ++
          ('_' :: (toString n).toList) ++
          '.' :: (name.toList.dropWhile (fun c => c ≠ '.')).tail)
      else name ++ "_" ++ toString n) ∧
    enumerate_destination_file_name "a.csv" 3 = "a_3.csv" ∧
    enumerate_destination_file_name "a" 3 = "a_3" := by
  refine ⟨?_, by decide, by decide⟩
  unfold enumerate_destination_file_name
  by_cases hd : '.' ∈ name.toList
  · rw [if_pos hd, if_pos hd, subFirstDot_eq _ hd]
    simp
  · rw [if_neg hd, if_neg hd]

/-- C7 counterexample: the separator invariant fails as universally
stated — for the non-empty folder `"."` (whose cleaned form survives as
`"."` but is erased by normalization in the combine step) and the
separator-free file name `"f"`, the combined path is `"f"`, which does
not consist of the cleaned folder, one `'/'`, and the file name. -/
theorem C7_counterexample :
    ("." : String) ≠ "" ∧
    clean_folder_name "." = "." ∧
    combine_folder_and_file_name (clean_folder_name ".") "f" = "f" ∧
    combine_folder_and_file_name (clean_folder_name ".") "f" ≠
      clean_folder_name "." ++ "/" ++ "f" :=
  ⟨by decide, by decide, by decide, by decide⟩

/-- C7 (amended): for folders and file names in normal form (non-empty,
no leading/trailing `'/'`, and every `'/'`-separated segment non-empty
and different from `'.'` and `'..'`),
`combine(clean_folder_name(folder), file_name)` is exactly
`folder ++ "/" ++ file_name` — one separator between the two parts —
and contains no doubled separator anywhere; `clean_folder_name` maps
`""` to `""` and its result has no leading or trailing `'/'`. -/
theorem C7_amended (folder file : String) (hf : normalPath folder)
    (hg : normalPath file) :
    clean_folder_name "" = "" ∧
    clean_folder_name folder = folder ∧
    combine_folder_and_file_name (clean_folder_name folder) file =
      folder ++ "/" ++ file ∧
    ¬ ['/', '/'] <:+:
      (combine_folder_and_file_name (clean_folder_name folder) file).toList ∧
    (clean_folder_name folder).toList.head? ≠ some '/' ∧
    (clean_folder_name folder).toList.getLast? ≠ some '/' := by
  have hc := clean_folder_name_normal hf
  have hcomb := combine_normal hf hg
  have hab := normalPath_append hf hg
  refine ⟨by decide, hc, by rw [hc]; exact hcomb, ?_, ?_, ?_⟩
  · rw [hc, hcomb]
    exact no_double_slash (fun c hc' => (hab.2 c hc').1)
  · rw [hc]
    exact head_ne_slash (fun c hc' => (hf.2 c hc').1)
  · rw [hc]
    exact getLast_ne_slash (fun c hc' => (hf.2 c hc').1)

/-- Witness for C7 (amended) at a concrete input. -/
theorem C7_amended_witness :
    clean_folder_name "" = "" ∧
    clean_folder_name "out/sub" = "out/sub" ∧
    combine_folder_and_file_name (clean_folder_name "out/sub") "report.csv" =
      "out/sub" ++ "/" ++ "report.csv" ∧
    ¬ ['/', '/'] <:+:
      (combine_folder_and_file_name (clean_folder_name "out/sub") "report.csv").toList ∧
    (clean_folder_name "out/sub").toList.head? ≠ some '/' ∧
    (clean_folder_name "out/sub").toList.getLast? ≠ some '/' :=
  C7_amended "out/sub" "report.csv" (by decide) (by decide)

/-- C8: `find_matching_files` returns exactly the sub-list of candidates
whose name the pattern matches, in the original listing order (it is a
`List.filter`, hence a sublist), it is idempotent, and remove_file.py's
`gcp_find_matching_files` computes the same function. -/
theorem C8_filter_matches (blobs : List Blob) (p : String → Bool) :
    find_matching_files blobs p = blobs.filter (fun b => p b.name) ∧
    List.Sublist (find_matching_files blobs p) blobs ∧
    find_matching_files (find_matching_files blobs p) p =
      find_matching_files blobs p ∧
    gcp_find_matching_files blobs p = find_matching_files blobs p := by
  have hfilter : ∀ l : List Blob,
      find_matching_files l p = l.filter (fun b => p b.name) := by
    intro l
    induction l with
    | nil => rfl
    | cons b rest ih =>
      by_cases hb : p b.name <;>
        simp [find_matching_files, hb, ih, List.filter_cons]
  have hgcp : gcp_find_matching_files blobs p = find_matching_files blobs p := by
    induction blobs with
    | nil => rfl
    | cons b rest ih =>
      by_cases hb : p b.name <;>
        simp [find_matching_files, gcp_find_matching_files, hb, ih]
  refine ⟨hfilter blobs, ?_, ?_, hgcp⟩
  · rw [hfilter]
    exact List.filter_sublist blobs
  · rw [hfilter, hfilter, List.filter_filter]
    simp

/-- C10: an empty-string destination file name behaves exactly like an
absent one (basename of the source is used, never enumerated), and a
file number of `0` disables enumeration just like `None`, because both
dispatch tests in `determine_destination_file_name` use Python
truthiness. -/
theorem C10_truthiness (sourcePath : String) (fileNumber : Option Nat)
    (d : String) :
    determine_destination_file_name sourcePath (some "") fileNumber =
      extract_file_name_from_source_full_path sourcePath ∧
    determine_destination_file_name sourcePath (some "") fileNumber =
      determine_destination_file_name sourcePath none fileNumber ∧
    determine_destination_file_name sourcePath (some d) (some 0) =
      determine_destination_file_name sourcePath (some d) none := by
  refine ⟨by simp [determine_destination_file_name],
    by simp [determine_destination_file_name], ?_⟩
  by_cases hd : d = "" <;> simp [determine_destination_file_name, hd]

/-- Fail-fast shape of the download loop: with every blob before `k`
succeeding and `k` failing, exactly the prefix and `k` are attempted, in
order, and the loop reports failure. -/
theorem download_loop_fail_fast (ok : Blob → Bool) (dfolder : String)
    (dfile : Option String) (pre : List Blob) (k : Blob) (post : List Blob)
    (i : Nat) (hpre : ∀ b ∈ pre, ok b = true) (hk : ok k = false) :
    (download_loop ok dfolder dfile (pre ++ k :: post) i).1.map Prod.fst =
      pre ++ [k] ∧
    (download_loop ok dfolder dfile (pre ++ k :: post) i).2 = false := by
  induction pre generalizing i with
  | nil => simp [download_loop, hk]
  | cons b rest ih =>
    have hb : ok b = true := hpre b (by simp)
    have hrest : ∀ x ∈ rest, ok x = true := fun x hx => hpre x (by simp [hx])
    obtain ⟨ih1, ih2⟩ := ih (i + 1) hrest
    simp [download_loop, hb, ih1, ih2]

/-- Fail-fast shape of the move loop, same statement as for download. -/
theorem move_loop_fail_fast (ok : String → Bool) (dfolder : String)
    (dfile : Option String) (total : Nat) (pre : List String) (k : String)
    (post : List String) (i : Nat) (hpre : ∀ s ∈ pre, ok s = true)
    (hk : ok k = false) :
    (move_loop ok dfolder dfile total (pre ++ k :: post) i).1.map Prod.fst =
      pre ++ [k] ∧
    (move_loop ok dfolder dfile total (pre ++ k :: post) i).2 = false := by
  induction pre generalizing i with
  | nil => simp [move_loop, hk]
  | cons s rest ih =>
    have hs : ok s = true := hpre s (by simp)
    have hrest : ∀ x ∈ rest, ok x = true := fun x hx => hpre x (by simp [hx])
    obtain ⟨ih1, ih2⟩ := ih (i + 1) hrest
    simp [move_loop, hs, ih1, ih2]

/-- C1 counterexample: in regex mode with destination file name
`"a.csv"` and exactly one match, the download loop resolves the
destination to `"out/a_1.csv"` — the enumeration suffix `_1` is applied
(download passes `file_number=index+1` unconditionally), contradicting
the claim that a single match carries no suffix for every operation. -/
theorem C1_counterexample :
    (download_loop (fun _ => true) "out" (some "a.csv")
        [Blob.mk "in/x.csv"] 0).1.map Prod.snd = ["out/a_1.csv"] ∧
    ¬ (download_loop (fun _ => true) "out" (some "a.csv")
        [Blob.mk "in/x.csv"] 0).1.map Prod.snd = ["out/a.csv"] :=
  ⟨by decide, by decide⟩

/-- C1 (amended): only the move operation applies the single-match
special case — with exactly one regex match and an explicit destination
file name it resolves the destination without any enumeration suffix,
and with more than one match it enumerates from 1 in listing order —
while download and upload always pass `file_number = index + 1`, so even
a single match receives the suffix `_1`. -/
theorem C1_amended (okm : String → Bool) (okd : Blob → Bool)
    (oku : String → Bool) (folder d src s1 s2 : String) (b : Blob)
    (hd : d ≠ "") :
    (move_loop okm folder (some d) 1 [src] 1).1 =
      [(src, combine_folder_and_file_name folder d)] ∧
    (move_loop (fun _ => true) folder (some d) 2 [s1, s2] 1).1 =
      [(s1, combine_folder_and_file_name folder
          (enumerate_destination_file_name d 1)),
        (s2, combine_folder_and_file_name folder
          (enumerate_destination_file_name d 2))] ∧
    (download_loop okd folder (some d) [b] 0).1 =
      [(b, combine_folder_and_file_name folder
          (enumerate_destination_file_name d 1))] ∧
    (upload_loop oku folder (some d) [src] 0).1 =
      [(src, combine_folder_and_file_name folder
          (enumerate_destination_file_name d 1))] := by
  refine ⟨?_, ?_, ?_, ?_⟩
  · by_cases h : okm src <;>
      simp [move_loop, determine_destination_full_path,
        determine_destination_file_name, hd, h]
  · simp [move_loop, determine_destination_full_path,
      determine_destination_file_name, hd]
  · by_cases h : okd b <;>
      simp [download_loop, determine_destination_name,
        determine_destination_file_name, hd, h]
  · by_cases h : oku src <;>
      simp [upload_loop, determine_destination_full_path,
        determine_destination_file_name, hd, h]

/-- Witness for C1 (amended) at a concrete input. -/
theorem C1_amended_witness :
    (move_loop (fun _ => true) "out" (some "a.csv") 1 ["in/x.csv"] 1).1 =
      [("in/x.csv", combine_folder_and_file_name "out" "a.csv")] ∧
    (move_loop (fun _ => true) "out" (some "a.csv") 2 ["in/x.csv", "in/y.csv"] 1).1 =
      [("in/x.csv", combine_folder_and_file_name "out"
          (enumerate_destination_file_name "a.csv" 1)),
        ("in/y.csv", combine_folder_and_file_name "out"
          (enumerate_destination_file_name "a.csv" 2))] ∧
    (download_loop (fun _ => true) "out" (some "a.csv")
        [Blob.mk "in/x.csv"] 0).1 =
      [((Blob.mk "in/x.csv"), combine_folder_and_file_name "out"
          (enumerate_destination_file_name "a.csv" 1))] ∧
    (upload_loop (fun _ => true) "out" (some "a.csv") ["in/x.csv"] 0).1 =
      [("in/x.csv", combine_folder_and_file_name "out"
          (enumerate_destination_file_name "a.csv" 1))] :=
  C1_amended (fun _ => true) (fun _ => true) (fun _ => true) "out" "a.csv"
    "in/x.csv" "in/x.csv" "in/y.csv" (Blob.mk "in/x.csv") (by decide)

/-- C2 counterexample: with a JSON `--service-account` value and a
failing bucket lookup, the temporary credential file is created but the
`os.remove(tmp_file)` at the end of `main` is never reached, so the
file is still on the filesystem after the command exits — the claim's
"absent on every exit path" fails. -/
theorem C2_counterexample :
    (download_main_trace true true false true (fun _ => true) [] "" none).2 =
      false ∧
    tmpFileLeft (download_main_trace true true false true (fun _ => true) [] ""
      none).1 :=
  ⟨by decide, by decide⟩

/-- C2 (amended): whenever the `--service-account` value parses as JSON,
the temporary credential file is created as the very first step of
`main` — before the storage client is constructed — and it is removed
exactly on the normal-completion path; on every failure path (client
construction, bucket lookup, listing/matching, or a per-object
transfer) the removal at the end of `main` is never reached and the
file remains on the filesystem. -/
theorem C2_amended (clientOk bucketOk listOk : Bool) (ok : Blob → Bool)
    (blobs : List Blob) (dfolder : String) (dfile : Option String) :
    (download_main_trace true clientOk bucketOk listOk ok blobs dfolder
        dfile).1.head? = some MainEv.createTmp ∧
    ((download_main_trace true clientOk bucketOk listOk ok blobs dfolder
        dfile).2 = true →
      MainEv.removeTmp ∈
        (download_main_trace true clientOk bucketOk listOk ok blobs dfolder
          dfile).1) ∧
    ((download_main_trace true clientOk bucketOk listOk ok blobs dfolder
        dfile).2 = false →
      tmpFileLeft (download_main_trace true clientOk bucketOk listOk ok blobs
        dfolder dfile).1) := by
  refine ⟨?_, ?_, ?_⟩ <;>
    cases clientOk <;> cases bucketOk <;> cases listOk <;>
      cases hr : (download_loop ok dfolder dfile blobs 0).2 <;>
        simp [download_main_trace, tmpFileLeft, hr]

/-- Witness for C2 (amended) at a concrete input (a failing bucket
lookup, matching the counterexample scenario). -/
theorem C2_amended_witness :
    (download_main_trace true true false true (fun _ => true) [] ""
        none).1.head? = some MainEv.createTmp ∧
    ((download_main_trace true true false true (fun _ => true) [] ""
        none).2 = true →
      MainEv.removeTmp ∈
        (download_main_trace true true false true (fun _ => true) [] ""
          none).1) ∧
    ((download_main_trace true true false true (fun _ => true) [] ""
        none).2 = false →
      tmpFileLeft (download_main_trace true true false true (fun _ => true) []
        "" none).1) :=
  C2_amended true false true (fun _ => true) [] "" none

/-- C3: for one move, the delete primitive is attempted only after the
copy has been acknowledged (a delete in the trace implies the copy
succeeded and preceded it); if the copy fails, the uncaught exception
carries the unchanged backend state, in which the source object is
still retrievable; and if the delete fails after a successful copy, the
exception state holds the object at both the destination and the source
(a reported duplicate, not a silent loss). -/
theorem C3_move_semantics (oracle : MoveOracle) (st : List BucketObj)
    (sb sp db dp d : String) (h : getObj st sb sp = some d) :
    (MovePrim.delete ∈ (move_google_cloud_storage_file oracle st sb sp db dp).1 →
      oracle.copyOk = true ∧
      (move_google_cloud_storage_file oracle st sb sp db dp).1 =
        [MovePrim.copy, MovePrim.delete]) ∧
    (oracle.copyOk = false →
      (move_google_cloud_storage_file oracle st sb sp db dp).1 =
        [MovePrim.copy] ∧
      (move_google_cloud_storage_file oracle st sb sp db dp).2 =
        Except.error st ∧
      getObj st sb sp = some d) ∧
    (oracle.copyOk = true → oracle.deleteOk = false →
      (move_google_cloud_storage_file oracle st sb sp db dp).2 =
        Except.error (copyBlobState st sb sp db dp) ∧
      getObj (copyBlobState st sb sp db dp) db dp = some d ∧
      getObj (copyBlobState st sb sp db dp) sb sp = some d) := by
  have hcopy : copyBlobState st sb sp db dp =
      BucketObj.mk db dp d :: st := by
    unfold copyBlobState
    rw [h]
  have hdst : getObj (copyBlobState st sb sp db dp) db dp = some d := by
    rw [hcopy]
    simp [getObj]
  have hsrc : getObj (copyBlobState st sb sp db dp) sb sp = some d := by
    rw [hcopy]
    by_cases he : db = sb ∧ dp = sp
    · simp [getObj, he.1, he.2]
    · simp [getObj, he, h]
  refine ⟨?_, fun hc => ?_, fun hc hdel => ?_⟩
  · intro hmem
    by_cases hc : oracle.copyOk
    · refine ⟨hc, ?_⟩
      unfold move_google_cloud_storage_file
      cases hdel : oracle.deleteOk <;> simp [hc, hdel]
    · unfold move_google_cloud_storage_file at hmem
      simp [hc] at hmem
  · unfold move_google_cloud_storage_file
    simp [hc, h]
  · unfold move_google_cloud_storage_file
    simp [hc, hdel, hdst, hsrc]

/-- Witness for C3 at a concrete input (copy acknowledged, delete
failing). -/
theorem C3_move_semantics_witness :
    (MovePrim.delete ∈ (move_google_cloud_storage_file ⟨true, false⟩
        [⟨"b1", "p", "x"⟩] "b1" "p" "b2" "q").1 →
      (⟨true, false⟩ : MoveOracle).copyOk = true ∧
      (move_google_cloud_storage_file ⟨true, false⟩
        [⟨"b1", "p", "x"⟩] "b1" "p" "b2" "q").1 =
        [MovePrim.copy, MovePrim.delete]) ∧
    ((⟨true, false⟩ : MoveOracle).copyOk = false →
      (move_google_cloud_storage_file ⟨true, false⟩
        [⟨"b1", "p", "x"⟩] "b1" "p" "b2" "q").1 = [MovePrim.copy] ∧
      (move_google_cloud_storage_file ⟨true, false⟩
        [⟨"b1", "p", "x"⟩] "b1" "p" "b2" "q").2 =
        Except.error [⟨"b1", "p", "x"⟩] ∧
      getObj [⟨"b1", "p", "x"⟩] "b1" "p" = some "x") ∧
    ((⟨true, false⟩ : MoveOracle).copyOk = true →
      (⟨true, false⟩ : MoveOracle).deleteOk = false →
      (move_google_cloud_storage_file ⟨true, false⟩
        [⟨"b1", "p", "x"⟩] "b1" "p" "b2" "q").2 =
        Except.error (copyBlobState [⟨"b1", "p", "x"⟩] "b1" "p" "b2" "q") ∧
      getObj (copyBlobState [⟨"b1", "p", "x"⟩] "b1" "p" "b2" "q") "b2" "q" =
        some "x" ∧
      getObj (copyBlobState [⟨"b1", "p", "x"⟩] "b1" "p" "b2" "q") "b1" "p" =
        some "x") :=
  C3_move_semantics ⟨true, false⟩ [⟨"b1", "p", "x"⟩] "b1" "p" "b2" "q" "x"
    (by decide)

/-- C4: the driver loops are strictly sequential in listing order and
fail fast — if the per-object primitive for match `k` fails, the
matches before `k` were each attempted and completed (no rollback
exists in the code), `k`'s failure ends the invocation with an
exception, and the matches after `k` are never issued; shown for the
download loop and for the move loop. -/
theorem C4_fail_fast (okd : Blob → Bool) (dfolder : String)
    (dfile : Option String) (pre : List Blob) (k : Blob) (post : List Blob)
    (i : Nat) (okm : String → Bool) (mfolder : String) (mfile : Option String)
    (total : Nat) (preM : List String) (kM : String) (postM : List String)
    (j : Nat) (hpre : ∀ b ∈ pre, okd b = true) (hk : okd k = false)
    (hpreM : ∀ s ∈ preM, okm s = true) (hkM : okm kM = false) :
    ((download_loop okd dfolder dfile (pre ++ k :: post) i).1.map Prod.fst =
        pre ++ [k] ∧
      (download_loop okd dfolder dfile (pre ++ k :: post) i).2 = false) ∧
    ((move_loop okm mfolder mfile total (preM ++ kM :: postM) j).1.map
        Prod.fst = preM ++ [kM] ∧
      (move_loop okm mfolder mfile total (preM ++ kM :: postM) j).2 = false) :=
  ⟨download_loop_fail_fast okd dfolder dfile pre k post i hpre hk,
    move_loop_fail_fast okm mfolder mfile total preM kM postM j hpreM hkM⟩

/-- Witness for C4 at a concrete input: of three matches the second
fails, so the first completes, the second aborts, the third is never
attempted. -/
theorem C4_fail_fast_witness :
    ((download_loop (fun b => b.name ≠ "k") "" none
        ([Blob.mk "a"] ++ Blob.mk "k" :: [Blob.mk "z"]) 0).1.map
        Prod.fst = [Blob.mk "a"] ++ [Blob.mk "k"] ∧
      (download_loop (fun b => b.name ≠ "k") "" none
        ([Blob.mk "a"] ++ Blob.mk "k" :: [Blob.mk "z"]) 0).2 =
        false) ∧
    ((move_loop (fun s => s ≠ "k") "" none 3 (["a"] ++ "k" :: ["z"]) 1).1.map
        Prod.fst = ["a"] ++ ["k"] ∧
      (move_loop (fun s => s ≠ "k") "" none 3 (["a"] ++ "k" :: ["z"]) 1).2 =
        false) :=
  C4_fail_fast (fun b => b.name ≠ "k") "" none [Blob.mk "a"] (Blob.mk "k")
    [Blob.mk "z"] 0 (fun s => s ≠ "k") "" none 3 ["a"] "k" ["z"] 1
    (by decide) (by decide) (by decide) (by decide)

/-- C9 counterexample: in move_file.py a pattern that fails to compile
is caught by the blanket `except` and mapped to
`sys.exit(ec.EXIT_CODE_FILE_NOT_FOUND)` — the very same exit code the
file-not-found path uses — so the failure cause is not distinguishable,
refuting the claim's "distinct InvalidPattern error". -/
theorem C9_counterexample :
    move_main_regex false true (fun _ => true) "" none [] (fun _ => true) =
      ([], some EXIT_CODE_FILE_NOT_FOUND) ∧
    EXIT_CODE_FILE_NOT_FOUND = move_file_not_found_exit :=
  ⟨rfl, rfl⟩

/-- C9 (amended): when the source pattern does not compile, no
per-object storage primitive is ever invoked, but the failure is not a
distinct `InvalidPattern` status: move_file.py reports an error message
and exits with `EXIT_CODE_FILE_NOT_FOUND` — the same code as its
file-not-found failure — and download_file.py lets the compile
exception propagate uncaught. -/
theorem C9_amended (listOk : Bool) (ok : String → Bool) (dfolder : String)
    (dfile : Option String) (fileNames : List String)
    (pattern : String → Bool) (blobs : List Blob) :
    move_main_regex false listOk ok dfolder dfile fileNames pattern =
      ([], some EXIT_CODE_FILE_NOT_FOUND) ∧
    move_file_not_found_exit = EXIT_CODE_FILE_NOT_FOUND ∧
    download_regex_matching false blobs pattern = DlMatchResult.uncaught := by
  refine ⟨?_, rfl, rfl⟩
  unfold move_main_regex move_regex_matching
  simp

end GcsBlueprints
